import Mathlib

/-!
Verification of the seat-inventory / booking engine of the train-ticketing
backend (Go).  The embedding below follows the Go source files:

* `services.CalculatePassengerPrice`, `services.FindStationByNameOrCode`,
  `services.SearchTrains` (backend/services/trains_service.go),
* the train-selection switch of `executeBookTrainDirect`
  (backend/services/ai_service.go),
* the Capacity Store contract of §4.1 of the design document, modelled from
  the spec because `services.CreateBooking` / `CancelBooking` are not among
  the provided source files.

Conventions of the shallow embedding:

* Go `float64` money values are embedded as exact rationals (`ℚ`); the
  discount factors `0.80` / `0.70` are the rationals `80/100` / `70/100`.
* SQL `time` columns (`departure_time`, `arrival_time`) are minutes after
  midnight, as `Int`.
* Calendar dates are day numbers (`Int`); day `0` is a Sunday, so the Go
  `int(travelDate.Weekday())` becomes `date % 7` (mathematical mod, 0‥6).
  `time.Parse` string handling is outside the model: a request carries the
  already-parsed day number.
* PostgreSQL `similarity(name, query)` (pg_trgm) is an abstract parameter
  `sim : String → String → ℚ`.
* `UPPER` / `strings.ToLower` are per-character ASCII case maps, written
  over `String.data` so that every definition reduces in the kernel.
-/

namespace TrainApp

/-- Station record (`models.Station`). -/
structure Station where
  id : Int
  name : String
  city : String
  code : String
deriving DecidableEq, Repr

/-- Train record (`models.Train`). -/
structure Train where
  id : Int
  number : String
  ttype : String
  hasWifi : Bool
  hasFood : Bool
  totalSeats : Int
deriving DecidableEq, Repr

/-- Schedule row joined with its train and stations, exactly the row scanned
by `SearchTrains` (`models.Schedule` with the joined fields filled in). -/
structure Schedule where
  id : Int
  trainId : Int
  originId : Int
  destinationId : Int
  departureTime : Int
  arrivalTime : Int
  dayOfWeek : Int
  priceBase : ℚ
  availableSeats : Int
  train : Train
  origin : Station
  destination : Station
deriving DecidableEq, Repr

/-- Search request (`models.SearchRequest`).  `date` is the parsed travel
date as a day number; the three `filters` map entries of the Go code are
split into typed optional fields (`none` models both an absent key and a
value of the wrong dynamic type). -/
structure SearchRequest where
  origin : String
  destination : String
  date : Int
  timePreference : String
  passengerCount : Int
  filterHasWifi : Option Bool
  filterHasFood : Option Bool
  filterMaxPrice : Option ℚ
deriving DecidableEq, Repr

/-- Search result entry (`models.SearchResponse`). -/
structure SearchResponse where
  schedule : Schedule
  departureTime : String
  arrivalTime : String
  duration : String
  pricePerPerson : ℚ
  totalPrice : ℚ
deriving DecidableEq, Repr

/-- ASCII upper-casing of a string, the embedding of SQL `UPPER` /
Go `strings.ToUpper` (per-character case map). -/
def upperStr (s : String) : String := ⟨s.data.map Char.toUpper⟩

/-- ASCII lower-casing of a string, the embedding of `strings.ToLower`. -/
def lowerStr (s : String) : String := ⟨s.data.map Char.toLower⟩

/-- Substring containment on character lists: `listContains hay needle` is
true when `needle` occurs contiguously inside `hay`.  Embeds the SQL pattern
`hay LIKE '%' || needle || '%'`. -/
def listContains (needle : List Char) : List Char → Bool
  | [] => needle.isEmpty
  | c :: rest => needle.isPrefixOf (c :: rest) || listContains needle rest

/-- String containment, case-sensitive. -/
def strContains (hay needle : String) : Bool := listContains needle.data hay.data

/-- Price of one passenger (`services.CalculatePassengerPrice`): switch on the
lower-cased passenger type; unknown types fall through to the base price. -/
def CalculatePassengerPrice (basePrice : ℚ) (passengerType : String) : ℚ :=
  let t := lowerStr passengerType
  if t = "adult" then basePrice
  else if t = "senior" then basePrice * (80 / 100)
  else if t = "child" then basePrice * (70 / 100)
  else if t = "infant" then 0
  else basePrice

/-- Best similarity match (`ORDER BY similarity(name, $2) DESC LIMIT 1`):
returns an element of the list whose `similarity(name, query)` is maximal,
preferring earlier elements on ties. -/
def bestBySim (sim : String → String → ℚ) (query : String) :
    List Station → Option Station
  | [] => none
  | s :: rest =>
    match bestBySim sim query rest with
    | none => some s
    | some t => if sim s.name query < sim t.name query then some t else some s

/-- True when the station's code equals the query, case-insensitively
(the SQL `UPPER(code) = UPPER($1)`). -/
def codeMatches (query : String) (s : Station) : Bool :=
  upperStr s.code = upperStr query

/-- True when the query occurs case-insensitively inside the station's name
or city (the SQL `UPPER(name) LIKE UPPER('%q%') OR UPPER(city) LIKE ...`). -/
def fuzzyMatches (query : String) (s : Station) : Bool :=
  strContains (upperStr s.name) (upperStr query) ||
  strContains (upperStr s.city) (upperStr query)

/-- Station resolution (`services.FindStationByNameOrCode`): first an exact
case-insensitive code match, then the substring match on name or city with
the highest `similarity(name, query)`, otherwise `none` ("station not
found"). -/
def FindStationByNameOrCode (stations : List Station)
    (sim : String → String → ℚ) (query : String) : Option Station :=
  match stations.find? (codeMatches query) with
  | some s => some s
  | none => bestBySim sim query (stations.filter (fuzzyMatches query))

/-- Typed counterpart of the distinct `fmt.Errorf` failures of
`services.SearchTrains`. -/
inductive SearchError
  | originNotFound (query : String)
  | destinationNotFound (query : String)
  | pastDate
  | tooFarAhead
  | noResults
deriving DecidableEq, Repr

/-- Weekday of a day number: day 0 is a Sunday, matching Go's
`int(travelDate.Weekday())` convention (Sunday = 0). -/
def weekday (date : Int) : Int := date % 7

/-- Time-preference window of the `switch req.TimePreference` block: morning
is 06:00–12:00, afternoon 12:00–18:00, evening 18:00–24:00; the empty
preference, `"any"`, and any unmatched `switch` value add no constraint. -/
def timePrefOk (pref : String) (dep : Int) : Bool :=
  if pref = "" || pref = "any" then true
  else if pref = "morning" then decide (360 ≤ dep) && decide (dep < 720)
  else if pref = "afternoon" then decide (720 ≤ dep) && decide (dep < 1080)
  else if pref = "evening" then decide (1080 ≤ dep) && decide (dep < 1440)
  else true

/-- WiFi filter: a constraint is added only when `Filters["has_wifi"]` is the
boolean `true`. -/
def wifiOk (f : Option Bool) (t : Train) : Bool :=
  match f with
  | some true => t.hasWifi
  | _ => true

/-- Food filter, same shape as the WiFi filter. -/
def foodOk (f : Option Bool) (t : Train) : Bool :=
  match f with
  | some true => t.hasFood
  | _ => true

/-- Max-price filter: a constraint is added only when `Filters["max_price"]`
is a float strictly greater than 0. -/
def maxPriceOk (f : Option ℚ) (priceBase : ℚ) : Bool :=
  match f with
  | some p => if 0 < p then decide (priceBase ≤ p) else true
  | none => true

/-- The `WHERE` clause of the schedules query of `SearchTrains`, evaluated on
one joined row. -/
def rowMatches (originId destinationId dow passengerCount : Int)
    (pref : String) (fWifi fFood : Option Bool) (fMax : Option ℚ)
    (s : Schedule) : Bool :=
  decide (s.originId = originId) &&
  decide (s.destinationId = destinationId) &&
  decide (s.dayOfWeek = dow) &&
  decide (passengerCount ≤ s.availableSeats) &&
  timePrefOk pref s.departureTime &&
  wifiOk fWifi s.train &&
  foodOk fFood s.train &&
  maxPriceOk fMax s.priceBase

/-- Zero-padded two-digit rendering of a time component ("15:04" format). -/
def pad2 (n : Int) : String :=
  let s := toString n
  if s.length < 2 then "0" ++ s else s

/-- Time-of-day display string ("15:04" format). -/
def fmtHM (t : Int) : String := pad2 (t / 60) ++ ":" ++ pad2 (t % 60)

/-- Duration display string: `fmt.Sprintf("%dh %dm", hours, minutes)` where
`hours = int(duration.Hours())` and `minutes = int(duration.Minutes()) % 60`,
i.e. Go's truncated division and remainder of the minute count. -/
def durationString (mins : Int) : String :=
  toString (mins.tdiv 60) ++ "h " ++ toString (mins.tmod 60) ++ "m"

/-- Construction of one `models.SearchResponse` from a surviving row, with
the derived display fields and prices of the scan loop of `SearchTrains`. -/
def mkSearchResponse (passengerCount : Int) (s : Schedule) : SearchResponse :=
  let dur := s.arrivalTime - s.departureTime
  { schedule := s
    departureTime := fmtHM s.departureTime
    arrivalTime := fmtHM s.arrivalTime
    duration := durationString dur
    pricePerPerson := s.priceBase
    totalPrice := s.priceBase * (passengerCount : ℚ) }

/-- Ordering used by `ORDER BY s.departure_time`. -/
def depLE (a b : Schedule) : Prop := a.departureTime ≤ b.departureTime

instance : DecidableRel depLE :=
  fun a b => inferInstanceAs (Decidable (a.departureTime ≤ b.departureTime))

instance : IsTotal Schedule depLE :=
  ⟨fun a b => Int.le_total a.departureTime b.departureTime⟩

instance : IsTrans Schedule depLE := ⟨fun _ _ _ hab hbc => le_trans hab hbc⟩

/-- Effective passenger count of `SearchTrains`: the request value, clamped
up to 1 (`if req.PassengerCount < 1 { req.PassengerCount = 1 }`). -/
def effCount (req : SearchRequest) : Int :=
  if req.passengerCount < 1 then 1 else req.passengerCount

/-- Offer list built by the query-and-scan part of `SearchTrains`: the joined
schedule rows satisfying the `WHERE` clause, ordered by departure time
(`ORDER BY s.departure_time`), each turned into a `SearchResponse`. -/
def searchResults (rows : List Schedule) (req : SearchRequest)
    (origin destination : Station) : List SearchResponse :=
  (List.insertionSort depLE (rows.filter
    (rowMatches origin.id destination.id (weekday req.date) (effCount req)
      req.timePreference req.filterHasWifi req.filterHasFood
      req.filterMaxPrice))).map (mkSearchResponse (effCount req))

/-- Train search (`services.SearchTrains`):  resolve both stations, validate
the travel date against today's date (day numbers), then run the filtered,
ordered schedule query (`searchResults`), failing with `noResults` when
nothing survived. -/
def SearchTrains (stations : List Station) (sim : String → String → ℚ)
    (rows : List Schedule) (today : Int) (req : SearchRequest) :
    Except SearchError (List SearchResponse) :=
  match FindStationByNameOrCode stations sim req.origin with
  | none => .error (.originNotFound req.origin)
  | some origin =>
    match FindStationByNameOrCode stations sim req.destination with
    | none => .error (.destinationNotFound req.destination)
    | some destination =>
      if req.date < today then .error .pastDate
      else if today + 90 < req.date then .error .tooFarAhead
      else if (searchResults rows req origin destination).isEmpty
      then .error .noResults
      else .ok (searchResults rows req origin destination)

/-- Train-selection switch of `executeBookTrainDirect` (ai_service.go): given
the non-empty search results `first :: rest`, pick the booked train.  The
`"fastest"` arm is the Go loop that assigns the current element and
immediately breaks. -/
def selectTrainLoopFastest : List SearchResponse → SearchResponse → SearchResponse
  | [], sel => sel
  | t :: _, _ => t

/-- Fold of the `"cheapest"` arm: scan all results, keeping the strictly
cheaper one. -/
def selectTrainCheapest (results : List SearchResponse) (sel : SearchResponse) :
    SearchResponse :=
  results.foldl (fun acc train =>
    if train.totalPrice < acc.totalPrice then train else acc) sel

/-- The whole selection switch, with `results[0]` as the default. -/
def selectTrain (trainSelection : String) (first : SearchResponse)
    (rest : List SearchResponse) : SearchResponse :=
  let results := first :: rest
  if trainSelection = "last" then results.getLast (List.cons_ne_nil _ _)
  else if trainSelection = "cheapest" then selectTrainCheapest results first
  else if trainSelection = "fastest" then selectTrainLoopFastest results first
  else first

/-- Demo station: Milano Centrale. -/
def stMilano : Station := ⟨1, "Milano Centrale", "Milano", "MIL"⟩

/-- Demo station: Roma Termini. -/
def stRoma : Station := ⟨2, "Roma Termini", "Roma", "ROM"⟩

/-- Demo train. -/
def trDemo : Train := ⟨1, "FR9600", "Frecciarossa", true, true, 100⟩

/-- Demo schedule row: Milano → Roma, Sunday slot, 08:00 → 11:15, base fare
50, 5 seats left. -/
def schedDemo : Schedule :=
  ⟨10, 1, 1, 2, 480, 675, 0, 50, 5, trDemo, stMilano, stRoma⟩

/-- Demo station table. -/
def demoStations : List Station := [stMilano, stRoma]

/-- Demo schedules table. -/
def demoRows : List Schedule := [schedDemo]

/-- Constant similarity function for concrete evaluations. -/
def demoSim : String → String → ℚ := fun _ _ => 0

/-- Demo request: two passengers, travel day 7 (a Sunday) seen from day 0. -/
def demoReq : SearchRequest :=
  { origin := "MIL", destination := "ROM", date := 7, timePreference := "any"
    passengerCount := 2, filterHasWifi := none, filterHasFood := none
    filterMaxPrice := none }

end TrainApp

namespace CapacityStore

/-- Modelled from the spec: result of the Capacity Store `reserve` operation
(§4.1).  The implementing function `services.CreateBooking` is not among the
provided source files; only its handler callers are.  `reserve` either
succeeds with the decremented remaining capacity or reports
`InsufficientCapacity`. -/
inductive ReserveResult
  | ok (newRemaining : Int)
  | insufficientCapacity
deriving DecidableEq, Repr

/-- Modelled from the spec: `reserve(departure_id, seats_needed)` of §4.1.
Inside a row-locked transaction the remaining capacity is read and, when
`seats ≤ remaining`, decremented; otherwise the call fails without any
partial effect. -/
def reserve (remaining seats : Int) : ReserveResult :=
  if seats ≤ remaining then .ok (remaining - seats) else .insufficientCapacity

/-- True on a successful reserve outcome. -/
def ReserveResult.isOk : ReserveResult → Bool
  | .ok _ => true
  | .insufficientCapacity => false

/-- Modelled from the spec: §5 states that the row lock serializes concurrent
`reserve` calls against one departure, so any concurrent execution of `n`
calls requesting `seats` each is some sequential run.  Returns the trace of
per-call outcomes and the final remaining capacity. -/
def runReserves (seats : Int) : Nat → Int → List ReserveResult × Int
  | 0, rem => ([], rem)
  | Nat.succ n, rem =>
    match reserve rem seats with
    | .ok rem2 =>
      let out := runReserves seats n rem2
      (.ok rem2 :: out.1, out.2)
    | .insufficientCapacity =>
      let out := runReserves seats n rem
      (.insufficientCapacity :: out.1, out.2)

/-- Number of successful calls in a trace. -/
def successCount (tr : List ReserveResult) : Nat := tr.countP (fun r => r.isOk)

end CapacityStore


namespace TrainApp

/-- Unfolding equation for the pricing switch on lower-cased input. -/
theorem calculatePassengerPrice_eq (b : ℚ) (t : String) :
    CalculatePassengerPrice b t =
      (if lowerStr t = "adult" then b
       else if lowerStr t = "senior" then b * (80 / 100)
       else if lowerStr t = "child" then b * (70 / 100)
       else if lowerStr t = "infant" then 0
       else b) := rfl

/-- C2: for every base fare `b` the pricing calculator returns `b` for
category "adult", `0.80 * b` for "senior", `0.70 * b` for "child", `0` for
"infant", and falls back to `b` on any category outside the set
(case-insensitively, mirroring the `strings.ToLower` of the switch); in
particular the four concrete values at base fare 100 hold. -/
theorem calculatePassengerPrice_spec (b : ℚ) :
    CalculatePassengerPrice b "adult" = b ∧
    CalculatePassengerPrice b "senior" = (80 / 100) * b ∧
    CalculatePassengerPrice b "child" = (70 / 100) * b ∧
    CalculatePassengerPrice b "infant" = 0 ∧
    (∀ t : String,
      lowerStr t ∉ (["adult", "senior", "child", "infant"] : List String) →
      CalculatePassengerPrice b t = b) ∧
    CalculatePassengerPrice 100 "adult" = 100 ∧
    CalculatePassengerPrice 100 "senior" = 80 ∧
    CalculatePassengerPrice 100 "child" = 70 ∧
    CalculatePassengerPrice 100 "infant" = 0 := by
  refine ⟨rfl, ?_, ?_, rfl, ?_, rfl,
    by rw [calculatePassengerPrice_eq, if_neg (by decide), if_pos (by decide)]
       norm_num,
    by rw [calculatePassengerPrice_eq, if_neg (by decide), if_neg (by decide),
         if_pos (by decide)]
       norm_num,
    by rw [calculatePassengerPrice_eq, if_neg (by decide), if_neg (by decide),
         if_neg (by decide), if_pos (by decide)]⟩
  · show b * (80 / 100) = (80 / 100) * b
    ring
  · show b * (70 / 100) = (70 / 100) * b
    ring
  · intro t ht
    simp only [List.mem_cons, List.not_mem_nil, or_false, not_or] at ht
    obtain ⟨h1, h2, h3, h4⟩ := ht
    rw [calculatePassengerPrice_eq, if_neg h1, if_neg h2, if_neg h3, if_neg h4]

/-- C2 witness: an unknown category ("student") falls back to adult pricing
at base fare 100. -/
theorem calculatePassengerPrice_spec_witness :
    CalculatePassengerPrice 100 "student" = 100 :=
  (calculatePassengerPrice_spec 100).2.2.2.2.1 "student" (by decide)

/-- C9: under the "fastest" selection criterion of `executeBookTrainDirect`,
the chosen train is always the first element of the search results,
whatever the other results (and their durations) are: the loop assigns the
first element and breaks without comparing durations. -/
theorem selectTrain_fastest_is_first (first : SearchResponse)
    (rest : List SearchResponse) :
    selectTrain "fastest" first rest = first := rfl

end TrainApp

namespace CapacityStore

/-- Sequential-run invariant of the modelled Capacity Store: starting from a
non-negative remaining capacity, the trace has one entry per call, the final
capacity is the start minus `successes * seats`, and it never goes
negative. -/
theorem runReserves_invariant (S : Int) :
    ∀ (n : Nat) (rem : Int), 0 ≤ rem →
      (runReserves S n rem).1.length = n ∧
      (runReserves S n rem).2 =
        rem - (successCount (runReserves S n rem).1 : Int) * S ∧
      0 ≤ (runReserves S n rem).2 := by
  intro n
  induction n with
  | zero =>
    intro rem hrem
    simp [runReserves, successCount]
    exact hrem
  | succ n ih =>
    intro rem hrem
    by_cases hle : S ≤ rem
    · have hres : reserve rem S = .ok (rem - S) := by
        simp [reserve, hle]
      have hrem2 : 0 ≤ rem - S := by linarith
      obtain ⟨ihlen, ihfin, ihpos⟩ := ih (rem - S) hrem2
      simp only [runReserves, hres, successCount, List.countP_cons,
        ReserveResult.isOk, List.length_cons] at *
      refine ⟨by omega, ?_, ihpos⟩
      rw [ihfin]
      push_cast
      ring
    · have hres : reserve rem S = .insufficientCapacity := by
        simp [reserve, hle]
      obtain ⟨ihlen, ihfin, ihpos⟩ := ih rem hrem
      simp only [runReserves, hres, successCount, List.countP_cons,
        ReserveResult.isOk, List.length_cons] at *
      exact ⟨by omega, by simpa using ihfin, ihpos⟩

/-- C1: with the row lock serializing the calls (§5 of the spec), a run of
`n` reserve calls of `S` seats each against remaining capacity `C` grants at
most `⌊C / S⌋` of them, every unsuccessful call observes
`InsufficientCapacity`, the seats granted in total never exceed `C`, and the
remaining capacity never becomes negative. -/
theorem create_no_oversell (n : Nat) (C S : Int) (hS : 0 < S) (hC : 0 ≤ C) :
    (successCount (runReserves S n C).1 : Int) * S ≤ C ∧
    (runReserves S n C).2 =
      C - (successCount (runReserves S n C).1 : Int) * S ∧
    0 ≤ (runReserves S n C).2 ∧
    successCount (runReserves S n C).1 ≤ C.toNat / S.toNat ∧
    (runReserves S n C).1.length = n ∧
    (∀ r ∈ (runReserves S n C).1,
      r.isOk = false → r = ReserveResult.insufficientCapacity) := by
  obtain ⟨hlen, hfin, hpos⟩ := runReserves_invariant S n C hC
  have hmul : (successCount (runReserves S n C).1 : Int) * S ≤ C := by linarith
  refine ⟨hmul, hfin, hpos, ?_, hlen, ?_⟩
  · rw [Nat.le_div_iff_mul_le (by omega : 0 < S.toNat)]
    rw [← Int.ofNat_le]
    push_cast
    rw [Int.toNat_of_nonneg hS.le, Int.toNat_of_nonneg hC]
    exact hmul
  · intro r _ hr
    cases r with
    | ok m => simp [ReserveResult.isOk] at hr
    | insufficientCapacity => rfl

/-- C1 witness: three concurrent single-booking calls of 2 seats each against
5 remaining seats grant exactly 2 of them (⌊5/2⌋), leaving capacity 1. -/
theorem create_no_oversell_witness :
    0 < (2 : Int) ∧ 0 ≤ (5 : Int) ∧
    (successCount (runReserves 2 3 5).1 : Int) * 2 ≤ 5 ∧
    successCount (runReserves 2 3 5).1 ≤ (5 : Int).toNat / (2 : Int).toNat ∧
    0 ≤ (runReserves 2 3 5).2 :=
  ⟨by decide, by decide,
   (create_no_oversell 3 5 2 (by decide) (by decide)).1,
   (create_no_oversell 3 5 2 (by decide) (by decide)).2.2.2.1,
   (create_no_oversell 3 5 2 (by decide) (by decide)).2.2.1⟩

end CapacityStore

namespace TrainApp

/-- Characterization of a successful `SearchTrains` run: both stations
resolved, the date passed validation, and the returned list is the non-empty
filtered, sorted, mapped offer list. -/
theorem SearchTrains_ok_elim
    (stations : List Station) (sim : String → String → ℚ)
    (rows : List Schedule) (today : Int) (req : SearchRequest)
    (results : List SearchResponse)
    (h : SearchTrains stations sim rows today req = .ok results) :
    ∃ origin destination,
      FindStationByNameOrCode stations sim req.origin = some origin ∧
      FindStationByNameOrCode stations sim req.destination = some destination ∧
      today ≤ req.date ∧ req.date ≤ today + 90 ∧
      results = searchResults rows req origin destination ∧
      results ≠ [] := by
  unfold SearchTrains at h
  cases hO : FindStationByNameOrCode stations sim req.origin with
  | none => rw [hO] at h; exact absurd h (by simp)
  | some origin =>
    rw [hO] at h
    dsimp only at h
    cases hD : FindStationByNameOrCode stations sim req.destination with
    | none => rw [hD] at h; exact absurd h (by simp)
    | some destination =>
      rw [hD] at h
      dsimp only at h
      by_cases h1 : req.date < today
      · rw [if_pos h1] at h; exact absurd h (by simp)
      · rw [if_neg h1] at h
        by_cases h2 : today + 90 < req.date
        · rw [if_pos h2] at h; exact absurd h (by simp)
        · rw [if_neg h2] at h
          refine ⟨origin, destination, rfl, rfl, by omega, by omega, ?_⟩
          by_cases h3 : (searchResults rows req origin destination).isEmpty
          · rw [if_pos h3] at h
            exact absurd h (by simp)
          · rw [if_neg h3] at h
            obtain rfl : _ = results := Except.ok.inj h
            exact ⟨rfl, by simpa [List.isEmpty_iff] using h3⟩


/-- C3: with both stations resolved, a travel date strictly before today is
rejected as a past date, a date more than 90 days ahead is rejected as too
far, and every date from today through today + 90 (the 90-day boundary
included) passes date validation: the search never returns either date
error for it. -/
theorem searchTrains_date_bounds
    (stations : List Station) (sim : String → String → ℚ)
    (rows : List Schedule) (today : Int) (req : SearchRequest)
    (origin destination : Station)
    (hO : FindStationByNameOrCode stations sim req.origin = some origin)
    (hD : FindStationByNameOrCode stations sim req.destination =
      some destination) :
    (req.date < today →
      SearchTrains stations sim rows today req = .error .pastDate) ∧
    (today + 90 < req.date →
      SearchTrains stations sim rows today req = .error .tooFarAhead) ∧
    (today ≤ req.date → req.date ≤ today + 90 →
      SearchTrains stations sim rows today req ≠ .error .pastDate ∧
      SearchTrains stations sim rows today req ≠ .error .tooFarAhead) := by
  unfold SearchTrains
  rw [hO]
  dsimp only
  rw [hD]
  dsimp only
  refine ⟨fun h1 => by rw [if_pos h1], fun h2 => ?_, fun h1 h2 => ?_⟩
  · rw [if_neg (by omega), if_pos h2]
  · rw [if_neg (by omega), if_neg (by omega)]
    constructor <;> split <;> simp

/-- C3 witness: with today = day 0, searching for day −1 is rejected as a
past date, day 91 as too far ahead, and day 90 passes both date checks. -/
theorem searchTrains_date_bounds_witness :
    SearchTrains demoStations demoSim demoRows 0
      { demoReq with date := -1 } = .error .pastDate ∧
    SearchTrains demoStations demoSim demoRows 0
      { demoReq with date := 91 } = .error .tooFarAhead ∧
    SearchTrains demoStations demoSim demoRows 0
      { demoReq with date := 90 } ≠ .error .pastDate ∧
    SearchTrains demoStations demoSim demoRows 0
      { demoReq with date := 90 } ≠ .error .tooFarAhead :=
  ⟨(searchTrains_date_bounds demoStations demoSim demoRows 0
      { demoReq with date := -1 } stMilano stRoma rfl rfl).1 (by decide),
   (searchTrains_date_bounds demoStations demoSim demoRows 0
      { demoReq with date := 91 } stMilano stRoma rfl rfl).2.1 (by decide),
   ((searchTrains_date_bounds demoStations demoSim demoRows 0
      { demoReq with date := 90 } stMilano stRoma rfl rfl).2.2
      (by decide) (by decide)).1,
   ((searchTrains_date_bounds demoStations demoSim demoRows 0
      { demoReq with date := 90 } stMilano stRoma rfl rfl).2.2
      (by decide) (by decide)).2⟩

/-- C4: a search whose offer list is empty after filtering returns the
`noResults` error, and a successful search never carries an empty offer
list, so callers can tell "found nothing" from a successful search. -/
theorem searchTrains_noResults_spec
    (stations : List Station) (sim : String → String → ℚ)
    (rows : List Schedule) (today : Int) (req : SearchRequest) :
    (∀ origin destination,
      FindStationByNameOrCode stations sim req.origin = some origin →
      FindStationByNameOrCode stations sim req.destination =
        some destination →
      today ≤ req.date → req.date ≤ today + 90 →
      searchResults rows req origin destination = [] →
      SearchTrains stations sim rows today req = .error .noResults) ∧
    (∀ results, SearchTrains stations sim rows today req = .ok results →
      results ≠ []) := by
  constructor
  · intro origin destination hO hD h1 h2 hEmpty
    unfold SearchTrains
    rw [hO]
    dsimp only
    rw [hD]
    dsimp only
    rw [if_neg (by omega), if_neg (by omega), if_pos (by simp [hEmpty])]
  · intro results h
    obtain ⟨o, d, _, _, _, _, _, hne⟩ :=
      SearchTrains_ok_elim stations sim rows today req results h
    exact hne

/-- C4 witness: searching the demo data on day 8 (a Monday, while the only
schedule runs on Sundays) filters everything out and yields `noResults`. -/
theorem searchTrains_noResults_spec_witness :
    SearchTrains demoStations demoSim demoRows 0 { demoReq with date := 8 } =
      .error .noResults :=
  (searchTrains_noResults_spec demoStations demoSim demoRows 0
    { demoReq with date := 8 }).1 stMilano stRoma rfl rfl
    (by decide) (by decide) rfl

/-- C10: a request with passenger count below 1 (zero, negative, or absent)
is served exactly like the same request with passenger count 1: the whole
search result is identical. -/
theorem searchTrains_passengerCount_default
    (stations : List Station) (sim : String → String → ℚ)
    (rows : List Schedule) (today : Int) (req : SearchRequest)
    (h : req.passengerCount < 1) :
    SearchTrains stations sim rows today req =
      SearchTrains stations sim rows today
        { req with passengerCount := 1 } := by
  have he : effCount req = effCount { req with passengerCount := 1 } := by
    simp [effCount, h]
  unfold SearchTrains searchResults
  rw [he]

/-- C10 witness: on the demo data, a zero-passenger request returns the same
result as the one-passenger request. -/
theorem searchTrains_passengerCount_default_witness :
    SearchTrains demoStations demoSim demoRows 0
      { demoReq with passengerCount := 0 } =
    SearchTrains demoStations demoSim demoRows 0
      { demoReq with passengerCount := 1 } :=
  searchTrains_passengerCount_default demoStations demoSim demoRows 0
    { demoReq with passengerCount := 0 } (by decide)

end TrainApp

namespace TrainApp

/-- Membership in the offer list comes from a schedule row of the table that
satisfies the `WHERE` clause. -/
theorem searchResults_mem
    (rows : List Schedule) (req : SearchRequest)
    (origin destination : Station) (r : SearchResponse)
    (hr : r ∈ searchResults rows req origin destination) :
    ∃ s ∈ rows,
      rowMatches origin.id destination.id (weekday req.date) (effCount req)
        req.timePreference req.filterHasWifi req.filterHasFood
        req.filterMaxPrice s = true ∧
      r = mkSearchResponse (effCount req) s := by
  unfold searchResults at hr
  obtain ⟨s, hs, rfl⟩ := List.mem_map.mp hr
  have hs2 := (List.perm_insertionSort depLE _).mem_iff.mp hs
  obtain ⟨hmem, hmatch⟩ := List.mem_filter.mp hs2
  exact ⟨s, hmem, hmatch, rfl⟩

/-- Unpacking of the conjunctions of the `WHERE` clause on a matching row. -/
theorem rowMatches_elim
    {originId destinationId dow passengerCount : Int} {pref : String}
    {fWifi fFood : Option Bool} {fMax : Option ℚ} {s : Schedule}
    (h : rowMatches originId destinationId dow passengerCount pref
      fWifi fFood fMax s = true) :
    s.originId = originId ∧ s.destinationId = destinationId ∧
    s.dayOfWeek = dow ∧ passengerCount ≤ s.availableSeats := by
  simp only [rowMatches, Bool.and_eq_true, decide_eq_true_eq] at h
  exact ⟨h.1.1.1.1.1.1.1, h.1.1.1.1.1.1.2, h.1.1.1.1.1.2, h.1.1.1.1.2⟩

/-- C5: every offer a successful search returns lies on the resolved origin
and destination stations, runs on the weekday of the requested date, and has
at least as many available seats as the requested passenger count; no other
row reaches the result list. -/
theorem searchTrains_results_match
    (stations : List Station) (sim : String → String → ℚ)
    (rows : List Schedule) (today : Int) (req : SearchRequest)
    (origin destination : Station) (results : List SearchResponse)
    (hO : FindStationByNameOrCode stations sim req.origin = some origin)
    (hD : FindStationByNameOrCode stations sim req.destination =
      some destination)
    (h : SearchTrains stations sim rows today req = .ok results) :
    ∀ r ∈ results,
      r.schedule.originId = origin.id ∧
      r.schedule.destinationId = destination.id ∧
      r.schedule.dayOfWeek = weekday req.date ∧
      req.passengerCount ≤ r.schedule.availableSeats := by
  intro r hr
  obtain ⟨o, d, hO2, hD2, _, _, hres, _⟩ :=
    SearchTrains_ok_elim stations sim rows today req results h
  rw [hO] at hO2
  rw [hD] at hD2
  obtain rfl := Option.some.inj hO2
  obtain rfl := Option.some.inj hD2
  subst hres
  obtain ⟨s, _, hmatch, rfl⟩ := searchResults_mem rows req origin destination r hr
  obtain ⟨h1, h2, h3, h4⟩ := rowMatches_elim hmatch
  have hsched : (mkSearchResponse (effCount req) s).schedule = s := rfl
  rw [hsched]
  have hcount : req.passengerCount ≤ effCount req := by
    unfold effCount
    split <;> omega
  exact ⟨h1, h2, h3, le_trans hcount h4⟩

/-- C5 witness: the demo search's only offer matches Milano → Roma, the
Sunday weekday of day 7, and seats 5 ≥ 2 requested. -/
theorem searchTrains_results_match_witness :
    (mkSearchResponse 2 schedDemo).schedule.originId = stMilano.id ∧
    (mkSearchResponse 2 schedDemo).schedule.destinationId = stRoma.id ∧
    (mkSearchResponse 2 schedDemo).schedule.dayOfWeek = weekday demoReq.date ∧
    demoReq.passengerCount ≤
      (mkSearchResponse 2 schedDemo).schedule.availableSeats :=
  searchTrains_results_match demoStations demoSim demoRows 0 demoReq
    stMilano stRoma [mkSearchResponse 2 schedDemo] rfl rfl rfl
    (mkSearchResponse 2 schedDemo) (List.mem_singleton.mpr rfl)

/-- C6: the offer list of a successful search is ordered by departure time
ascending: each adjacent pair is non-decreasing. -/
theorem searchTrains_sorted
    (stations : List Station) (sim : String → String → ℚ)
    (rows : List Schedule) (today : Int) (req : SearchRequest)
    (results : List SearchResponse)
    (h : SearchTrains stations sim rows today req = .ok results) :
    List.Chain'
      (fun a b => a.schedule.departureTime ≤ b.schedule.departureTime)
      results := by
  obtain ⟨o, d, _, _, _, _, rfl, _⟩ :=
    SearchTrains_ok_elim stations sim rows today req results h
  unfold searchResults
  have hsorted : List.Sorted depLE
      (List.insertionSort depLE (rows.filter
        (rowMatches o.id d.id (weekday req.date) (effCount req)
          req.timePreference req.filterHasWifi req.filterHasFood
          req.filterMaxPrice))) :=
    List.sorted_insertionSort depLE _
  refine List.Pairwise.chain' ?_
  exact List.Pairwise.map _ (fun a b hab => hab) hsorted

/-- C6 witness: the adjacency property on the demo search's offer list. -/
theorem searchTrains_sorted_witness :
    List.Chain'
      (fun a b => a.schedule.departureTime ≤ b.schedule.departureTime)
      [mkSearchResponse 2 schedDemo] :=
  searchTrains_sorted demoStations demoSim demoRows 0 demoReq
    [mkSearchResponse 2 schedDemo] rfl

end TrainApp

namespace TrainApp

/-- C7 (amended): every offer of a successful search carries the departure's
base fare, unscaled by passenger category, as its per-person price; the
total price is the per-person price times the effective passenger count
(the request's count clamped up to 1); and the duration is arrival minus
departure rendered as whole hours plus leftover minutes, components that
recompose to the exact minute difference. -/
theorem searchTrains_offer_prices
    (stations : List Station) (sim : String → String → ℚ)
    (rows : List Schedule) (today : Int) (req : SearchRequest)
    (results : List SearchResponse)
    (h : SearchTrains stations sim rows today req = .ok results) :
    ∀ r ∈ results,
      r.pricePerPerson = r.schedule.priceBase ∧
      r.totalPrice = r.pricePerPerson * ((effCount req : Int) : ℚ) ∧
      r.duration = durationString
        (r.schedule.arrivalTime - r.schedule.departureTime) ∧
      (r.schedule.arrivalTime - r.schedule.departureTime).tdiv 60 * 60 +
        (r.schedule.arrivalTime - r.schedule.departureTime).tmod 60 =
        r.schedule.arrivalTime - r.schedule.departureTime := by
  intro r hr
  obtain ⟨o, d, _, _, _, _, rfl, _⟩ :=
    SearchTrains_ok_elim stations sim rows today req results h
  obtain ⟨s, _, _, rfl⟩ := searchResults_mem rows req o d r hr
  refine ⟨rfl, rfl, rfl, ?_⟩
  exact Int.tdiv_add_tmod' _ _

/-- C7 witness: the demo offer shows base fare 50 per person, total
50 · 2 = 100, and duration string "3h 15m" for the 195-minute trip. -/
theorem searchTrains_offer_prices_witness :
    (mkSearchResponse 2 schedDemo).pricePerPerson =
      (mkSearchResponse 2 schedDemo).schedule.priceBase ∧
    (mkSearchResponse 2 schedDemo).totalPrice =
      (mkSearchResponse 2 schedDemo).pricePerPerson *
        ((effCount demoReq : Int) : ℚ) ∧
    (mkSearchResponse 2 schedDemo).duration = durationString
      ((mkSearchResponse 2 schedDemo).schedule.arrivalTime -
        (mkSearchResponse 2 schedDemo).schedule.departureTime) :=
  ⟨(searchTrains_offer_prices demoStations demoSim demoRows 0 demoReq
      [mkSearchResponse 2 schedDemo] rfl
      (mkSearchResponse 2 schedDemo) (List.mem_singleton.mpr rfl)).1,
   (searchTrains_offer_prices demoStations demoSim demoRows 0 demoReq
      [mkSearchResponse 2 schedDemo] rfl
      (mkSearchResponse 2 schedDemo) (List.mem_singleton.mpr rfl)).2.1,
   (searchTrains_offer_prices demoStations demoSim demoRows 0 demoReq
      [mkSearchResponse 2 schedDemo] rfl
      (mkSearchResponse 2 schedDemo) (List.mem_singleton.mpr rfl)).2.2.1⟩

/-- C7 counterexample: with requested passenger count 0, the search still
prices the offer for one passenger, so the total (50) differs from
per-person price times the requested count (50 · 0 = 0). -/
theorem searchTrains_offer_prices_counterexample :
    SearchTrains demoStations demoSim demoRows 0
      { demoReq with passengerCount := 0 } =
      .ok [mkSearchResponse 1 schedDemo] ∧
    (mkSearchResponse 1 schedDemo).totalPrice = 50 ∧
    (mkSearchResponse 1 schedDemo).pricePerPerson *
      ((({ demoReq with passengerCount := 0 } :
        SearchRequest).passengerCount : Int) : ℚ) = 0 ∧
    (50 : ℚ) ≠ 0 := by
  refine ⟨rfl, ?_, ?_, by norm_num⟩
  · show (50 : ℚ) * ((1 : Int) : ℚ) = 50
    norm_num
  · show (50 : ℚ) * ((0 : Int) : ℚ) = 0
    norm_num

end TrainApp

namespace TrainApp

/-- The best-similarity pick is an element of its candidate list. -/
theorem bestBySim_mem (sim : String → String → ℚ) (query : String) :
    ∀ (l : List Station) (s : Station),
      bestBySim sim query l = some s → s ∈ l := by
  intro l
  induction l with
  | nil => intro s h; simp [bestBySim] at h
  | cons a rest ih =>
    intro s h
    unfold bestBySim at h
    cases hrec : bestBySim sim query rest with
    | none =>
      rw [hrec] at h
      dsimp only at h
      obtain rfl := Option.some.inj h
      exact List.mem_cons_self a rest
    | some t =>
      rw [hrec] at h
      dsimp only at h
      by_cases hlt : sim a.name query < sim t.name query
      · rw [if_pos hlt] at h
        obtain rfl := Option.some.inj h
        exact List.mem_cons_of_mem a (ih t hrec)
      · rw [if_neg hlt] at h
        obtain rfl := Option.some.inj h
        exact List.mem_cons_self a rest

/-- The best-similarity pick is `none` exactly on the empty candidate
list. -/
theorem bestBySim_eq_none (sim : String → String → ℚ) (query : String) :
    ∀ l : List Station, bestBySim sim query l = none ↔ l = [] := by
  intro l
  cases l with
  | nil => simp [bestBySim]
  | cons a rest =>
    simp only [bestBySim]
    cases bestBySim sim query rest with
    | none => simp
    | some t => by_cases h : sim a.name query < sim t.name query <;> simp [h]

/-- The best-similarity pick maximises `similarity(name, query)` over the
candidate list. -/
theorem bestBySim_max (sim : String → String → ℚ) (query : String) :
    ∀ (l : List Station) (s : Station),
      bestBySim sim query l = some s →
      ∀ t ∈ l, sim t.name query ≤ sim s.name query := by
  intro l
  induction l with
  | nil => intro s h; simp [bestBySim] at h
  | cons a rest ih =>
    intro s h t ht
    unfold bestBySim at h
    cases hrec : bestBySim sim query rest with
    | none =>
      rw [hrec] at h
      dsimp only at h
      obtain rfl := Option.some.inj h
      obtain rfl : rest = [] := (bestBySim_eq_none sim query rest).mp hrec
      obtain rfl : t = a := by simpa using ht
      exact le_refl _
    | some u =>
      rw [hrec] at h
      dsimp only at h
      rcases List.mem_cons.mp ht with rfl | htr
      · by_cases hlt : sim t.name query < sim u.name query
        · rw [if_pos hlt] at h
          obtain rfl := Option.some.inj h
          exact hlt.le
        · rw [if_neg hlt] at h
          obtain rfl := Option.some.inj h
          exact le_refl _
      · by_cases hlt : sim a.name query < sim u.name query
        · rw [if_pos hlt] at h
          obtain rfl := Option.some.inj h
          exact ih u hrec t htr
        · rw [if_neg hlt] at h
          obtain rfl := Option.some.inj h
          exact le_trans (ih u hrec t htr) (not_lt.mp hlt)

/-- C8: station resolution follows the two-step order of
`FindStationByNameOrCode` — a case-insensitive exact code match is returned
first; with no code match, the returned station is a case-insensitive
substring match on name or city with maximal similarity to the input; with
neither kind of match the resolver reports not-found; and `SearchTrains`
propagates a failed resolution as an error naming the side (origin or
destination) that failed. -/
theorem findStation_spec (stations : List Station)
    (sim : String → String → ℚ) (query : String) :
    (∀ s, stations.find? (codeMatches query) = some s →
      FindStationByNameOrCode stations sim query = some s ∧
      codeMatches query s = true ∧ s ∈ stations) ∧
    (stations.find? (codeMatches query) = none →
      ∀ s, FindStationByNameOrCode stations sim query = some s →
        s ∈ stations ∧ fuzzyMatches query s = true ∧
        ∀ t ∈ stations, fuzzyMatches query t = true →
          sim t.name query ≤ sim s.name query) ∧
    (FindStationByNameOrCode stations sim query = none ↔
      ∀ s ∈ stations, codeMatches query s = false ∧
        fuzzyMatches query s = false) ∧
    (∀ (rows : List Schedule) (today : Int) (req : SearchRequest),
      (FindStationByNameOrCode stations sim req.origin = none →
        SearchTrains stations sim rows today req =
          .error (.originNotFound req.origin)) ∧
      (∀ origin,
        FindStationByNameOrCode stations sim req.origin = some origin →
        FindStationByNameOrCode stations sim req.destination = none →
        SearchTrains stations sim rows today req =
          .error (.destinationNotFound req.destination))) := by
  refine ⟨?_, ?_, ?_, ?_⟩
  · intro s h
    refine ⟨?_, List.find?_some h, List.mem_of_find?_eq_some h⟩
    unfold FindStationByNameOrCode
    rw [h]
  · intro hnone s h
    unfold FindStationByNameOrCode at h
    rw [hnone] at h
    dsimp only at h
    have hmem := bestBySim_mem sim query _ s h
    obtain ⟨hs, hfz⟩ := List.mem_filter.mp hmem
    refine ⟨hs, hfz, fun t ht htf => ?_⟩
    exact bestBySim_max sim query _ s h t (List.mem_filter.mpr ⟨ht, htf⟩)
  · constructor
    · intro hnone s hs
      unfold FindStationByNameOrCode at hnone
      cases hf : stations.find? (codeMatches query) with
      | some t => rw [hf] at hnone; exact Option.noConfusion hnone
      | none =>
        rw [hf] at hnone
        dsimp only at hnone
        have hfilter : stations.filter (fuzzyMatches query) = [] :=
          (bestBySim_eq_none sim query _).mp hnone
        constructor
        · have := List.find?_eq_none.mp hf s hs
          simpa using this
        · have hnotin : s ∉ stations.filter (fuzzyMatches query) := by
            rw [hfilter]; simp
          by_contra hfz
          exact hnotin (List.mem_filter.mpr ⟨hs, by simpa using hfz⟩)
    · intro hall
      unfold FindStationByNameOrCode
      have hf : stations.find? (codeMatches query) = none := by
        apply List.find?_eq_none.mpr
        intro s hs
        simp [(hall s hs).1]
      rw [hf]
      dsimp only
      apply (bestBySim_eq_none sim query _).mpr
      apply List.filter_eq_nil_iff.mpr
      intro s hs
      simp [(hall s hs).2]
  · intro rows today req
    constructor
    · intro hnone
      unfold SearchTrains
      rw [hnone]
    · intro origin hO hD
      unfold SearchTrains
      rw [hO]
      dsimp only
      rw [hD]

/-- C8 witness: "mil" resolves to Milano Centrale by code match, "roma"
resolves to Roma Termini by the fuzzy branch, and an unresolvable origin
"xyz" makes the search fail with an origin-not-found error. -/
theorem findStation_spec_witness :
    FindStationByNameOrCode demoStations demoSim "mil" = some stMilano ∧
    stRoma ∈ demoStations ∧ fuzzyMatches "roma" stRoma = true ∧
    SearchTrains demoStations demoSim demoRows 0
      { demoReq with origin := "xyz" } =
      .error (.originNotFound "xyz") :=
  ⟨((findStation_spec demoStations demoSim "mil").1 stMilano rfl).1,
   ((findStation_spec demoStations demoSim "roma").2.1 rfl stRoma rfl).1,
   ((findStation_spec demoStations demoSim "roma").2.1 rfl stRoma rfl).2.1,
   ((findStation_spec demoStations demoSim "xyz").2.2.2 demoRows 0
      { demoReq with origin := "xyz" }).1 rfl⟩

end TrainApp
